import Mathlib

/-!
Verification development for the mobile-expiry-date repository.

The source is TypeScript.  We embed the relevant functions shallowly:
JavaScript strings become `List Char`, machine integers become `Nat`/`Int`,
fallible operations become `Option`.  Platform library calls
(`String.prototype.trim`, `JSON.parse`, `Date` parsing, base64 encoding)
are modelled explicitly; where the JavaScript behaviour has irrelevant
exotic corners (full Unicode whitespace classes, float formatting of
non-integer numbers) the model restricts to the behaviour exercised by the
repository, and the restriction is noted at the definition.
-/

set_option autoImplicit false

namespace MobileExpiry

/-- Set of whitespace characters removed by `String.prototype.trim` and
matched by the regex class `\s` (ASCII whitespace plus NBSP and BOM; the
remaining exotic Unicode space code points are not modelled). -/
def jsSpaceChar (c : Char) : Bool :=
  c = ' ' || c = '\t' || c = '\n' || c = '\r' ||
  c = Char.ofNat 11 || c = Char.ofNat 12 || c = Char.ofNat 160 || c = Char.ofNat 65279

/-- Model of `String.prototype.trim`: drop whitespace from both ends. -/
def jsTrim (l : List Char) : List Char :=
  ((l.dropWhile jsSpaceChar).reverse.dropWhile jsSpaceChar).reverse

/-- The regex character class `[\/\-.]` used by the date patterns `m1`/`m2`
in `coerceIsoDate` (src/src/app/api/session/[sessionId]/route.ts). -/
def isSepChar (c : Char) : Bool := c = '/' || c = '-' || c = '.'

/-- The regex character class `[\/\-]` used by the month-only pattern `m3`. -/
def isSep2Char (c : Char) : Bool := c = '/' || c = '-'

/-- The anchored test `/^\d{4}-\d{2}-\d{2}$/` from `coerceIsoDate`. -/
def isExactIso : List Char → Bool
  | [a, b, c, d, e, f, g, h, i, j] =>
    a.isDigit && b.isDigit && c.isDigit && d.isDigit && (e = '-') &&
    f.isDigit && g.isDigit && (h = '-') && i.isDigit && j.isDigit
  | _ => false

/-- One attempt of the unanchored search `/(\d{2})[\/\-.](\d{2})[\/\-.](\d{4})/`
at the head of the list; returns the three capture groups (day, month, year). -/
def matchM1At : List Char → Option (List Char × List Char × List Char)
  | d1 :: d2 :: s1 :: m1 :: m2 :: s2 :: y1 :: y2 :: y3 :: y4 :: _ =>
    if d1.isDigit && d2.isDigit && isSepChar s1 && m1.isDigit && m2.isDigit &&
       isSepChar s2 && y1.isDigit && y2.isDigit && y3.isDigit && y4.isDigit
    then some ([d1, d2], [m1, m2], [y1, y2, y3, y4]) else none
  | _ => none

/-- Leftmost match of the `m1` pattern, as `String.prototype.match` computes it. -/
def findM1 : List Char → Option (List Char × List Char × List Char)
  | [] => none
  | c :: rest =>
    match matchM1At (c :: rest) with
    | some r => some r
    | none => findM1 rest

/-- One attempt of the unanchored search `/(\d{4})[\/\-.](\d{2})[\/\-.](\d{2})/`
at the head of the list; returns the capture groups (year, month, day). -/
def matchM2At : List Char → Option (List Char × List Char × List Char)
  | y1 :: y2 :: y3 :: y4 :: s1 :: m1 :: m2 :: s2 :: d1 :: d2 :: _ =>
    if y1.isDigit && y2.isDigit && y3.isDigit && y4.isDigit && isSepChar s1 &&
       m1.isDigit && m2.isDigit && isSepChar s2 && d1.isDigit && d2.isDigit
    then some ([y1, y2, y3, y4], [m1, m2], [d1, d2]) else none
  | _ => none

/-- Leftmost match of the `m2` pattern. -/
def findM2 : List Char → Option (List Char × List Char × List Char)
  | [] => none
  | c :: rest =>
    match matchM2At (c :: rest) with
    | some r => some r
    | none => findM2 rest

/-- The anchored month-only pattern `/^(\d{4})[\/\-](\d{2})$/`. -/
def matchM3 : List Char → Option (List Char × List Char)
  | [y1, y2, y3, y4, s, m1, m2] =>
    if y1.isDigit && y2.isDigit && y3.isDigit && y4.isDigit && isSep2Char s &&
       m1.isDigit && m2.isDigit
    then some ([y1, y2, y3, y4], [m1, m2]) else none
  | _ => none

/-- The body of `coerceIsoDate` applied to the already-trimmed input
(`normalized` in the source). -/
def coerceCore (normalized : List Char) : List Char :=
  if isExactIso normalized then normalized
  else
    match findM1 normalized with
    | some (d, m, y) => y ++ '-' :: m ++ '-' :: d
    | none =>
      match findM2 normalized with
      | some (y, m, d) => y ++ '-' :: m ++ '-' :: d
      | none =>
        match matchM3 normalized with
        | some (y, m) => y ++ '-' :: m ++ '-' :: '0' :: '1' :: []
        | none => normalized

/-- `coerceIsoDate` from src/src/app/api/session/[sessionId]/route.ts
(analyze endpoint): trim, then try the exact ISO test, the `m1` and `m2`
searches and the anchored `m3` month-only pattern in order. -/
def coerceIsoDate (text : List Char) : List Char :=
  coerceCore (jsTrim text)

/-- Claim-side formalisation (C1 wording): an input of the form
DD sep MM sep YYYY with sep among dot, slash, dash, nothing more. -/
def formDMY : List Char → Bool
  | [a, b, s, c, d, t, e, f, g, h] =>
    a.isDigit && b.isDigit && isSepChar s && c.isDigit && d.isDigit &&
    isSepChar t && e.isDigit && f.isDigit && g.isDigit && h.isDigit
  | _ => false

/-- Claim-side formalisation (C1 wording): an input of the form
YYYY sep MM sep DD with sep among dot, slash, dash, nothing more. -/
def formYMD : List Char → Bool
  | [a, b, c, d, s, e, f, t, g, h] =>
    a.isDigit && b.isDigit && c.isDigit && d.isDigit && isSepChar s &&
    e.isDigit && f.isDigit && isSepChar t && g.isDigit && h.isDigit
  | _ => false

/-- Claim-side formalisation (C1 wording): a month-only input of the form
YYYY sep MM with sep slash or dash, nothing more. -/
def formYM : List Char → Bool
  | [a, b, c, d, s, e, f] =>
    a.isDigit && b.isDigit && c.isDigit && d.isDigit && isSep2Char s &&
    e.isDigit && f.isDigit
  | _ => false

lemma sep_not_digit (c : Char) (h : isSepChar c = true) : c.isDigit = false := by
  simp only [isSepChar, Bool.or_eq_true, decide_eq_true_eq] at h
  rcases h with (h | h) | h <;> subst h <;> decide

lemma digit_not_sep (c : Char) (h : c.isDigit = true) : isSepChar c = false := by
  cases hs : isSepChar c
  · rfl
  · rw [sep_not_digit c hs] at h
    exact Bool.noConfusion h

lemma sep2_not_digit (c : Char) (h : isSep2Char c = true) : c.isDigit = false := by
  simp only [isSep2Char, Bool.or_eq_true, decide_eq_true_eq] at h
  rcases h with h | h <;> subst h <;> decide

/-- Concrete input witnessing that C1's "every other input is returned
verbatim" clause fails: it is of none of the four claimed shapes. -/
def c1CexInput : List Char := "x06/07/2029".data

/--
C1, counterexample.  The claim states that an input of none of the four
listed shapes is returned verbatim.  The input "x06/07/2029" has none of
those shapes (the four shape predicates are `isExactIso`, `formDMY`,
`formYMD`, `formYM`), yet `coerceIsoDate` rewrites it to "2029-07-06",
because the source's `m1`/`m2` regexes are unanchored searches.
-/
theorem coerceIsoDate_verbatim_cex :
    isExactIso c1CexInput = false ∧ formDMY c1CexInput = false ∧
    formYMD c1CexInput = false ∧ formYM c1CexInput = false ∧
    coerceIsoDate c1CexInput = "2029-07-06".data ∧
    coerceIsoDate c1CexInput ≠ c1CexInput := by
  refine ⟨by decide, by decide, by decide, by decide, by decide, by decide⟩

/--
C1 (amended).  `coerceIsoDate` first trims its input.  On the trimmed
input: an exact `YYYY-MM-DD` is returned as is; an exact
`DD(sep)MM(sep)YYYY` (sep among slash, dash, dot) is reordered to
`YYYY-MM-DD`; an exact `YYYY(sep)MM(sep)DD` is reordered to `YYYY-MM-DD`;
an exact month-only `YYYY(sep)MM` (sep slash or dash) becomes
`YYYY-MM-01`; and when none of the source's patterns matches anywhere in
the trimmed input, the TRIMMED input (not the verbatim input) is
returned.  The `m1`/`m2` patterns are unanchored, so inputs merely
containing such a date fragment are rewritten as well (see the
counterexample).
-/
theorem coerceIsoDate_spec (l : List Char) :
    (isExactIso (jsTrim l) = true → coerceIsoDate l = jsTrim l) ∧
    (∀ a b s c d t e f g h : Char,
      jsTrim l = [a, b, s, c, d, t, e, f, g, h] →
      a.isDigit = true → b.isDigit = true → isSepChar s = true →
      c.isDigit = true → d.isDigit = true → isSepChar t = true →
      e.isDigit = true → f.isDigit = true → g.isDigit = true → h.isDigit = true →
      coerceIsoDate l = [e, f, g, h, '-', c, d, '-', a, b]) ∧
    (∀ a b c d s e f t g h : Char,
      jsTrim l = [a, b, c, d, s, e, f, t, g, h] →
      a.isDigit = true → b.isDigit = true → c.isDigit = true → d.isDigit = true →
      isSepChar s = true → e.isDigit = true → f.isDigit = true →
      isSepChar t = true → g.isDigit = true → h.isDigit = true →
      coerceIsoDate l = [a, b, c, d, '-', e, f, '-', g, h]) ∧
    (∀ a b c d s e f : Char,
      jsTrim l = [a, b, c, d, s, e, f] →
      a.isDigit = true → b.isDigit = true → c.isDigit = true → d.isDigit = true →
      isSep2Char s = true → e.isDigit = true → f.isDigit = true →
      coerceIsoDate l = [a, b, c, d, '-', e, f, '-', '0', '1']) ∧
    (isExactIso (jsTrim l) = false → findM1 (jsTrim l) = none →
      findM2 (jsTrim l) = none → matchM3 (jsTrim l) = none →
      coerceIsoDate l = jsTrim l) := by
  refine ⟨?_, ?_, ?_, ?_, ?_⟩
  · intro hiso
    simp [coerceIsoDate, coerceCore, hiso]
  · intro a b s c d t e f g h hl ha hb hs hc hd ht he hf hg hh
    have hiso : isExactIso (jsTrim l) = false := by
      rw [hl]; simp [isExactIso, sep_not_digit s hs]
    have hm1 : findM1 (jsTrim l) = some ([a, b], [c, d], [e, f, g, h]) := by
      rw [hl]; simp [findM1, matchM1At, ha, hb, hs, hc, hd, ht, he, hf, hg, hh]
    simp [coerceIsoDate, coerceCore, hiso, hm1]
  · intro a b c d s e f t g h hl ha hb hc hd hs he hf ht hg hh
    by_cases hiso : isExactIso (jsTrim l) = true
    · have hcc : coerceIsoDate l = jsTrim l := by
        simp [coerceIsoDate, coerceCore, hiso]
      rw [hl] at hiso
      simp only [isExactIso, Bool.and_eq_true, decide_eq_true_eq] at hiso
      obtain ⟨⟨⟨⟨⟨⟨⟨⟨⟨_, _⟩, _⟩, _⟩, hs'⟩, _⟩, _⟩, ht'⟩, _⟩, _⟩ := hiso
      rw [hcc, hl, hs', ht']
    · have hiso' : isExactIso (jsTrim l) = false := by
        cases hx : isExactIso (jsTrim l)
        · rfl
        · exact absurd hx hiso
      have hm1 : findM1 (jsTrim l) = none := by
        rw [hl]
        simp [findM1, matchM1At, digit_not_sep c hc, digit_not_sep d hd,
          digit_not_sep e he, digit_not_sep f hf]
      have hm2 : findM2 (jsTrim l) = some ([a, b, c, d], [e, f], [g, h]) := by
        rw [hl]; simp [findM2, matchM2At, ha, hb, hc, hd, hs, he, hf, ht, hg, hh]
      simp [coerceIsoDate, coerceCore, hiso', hm1, hm2]
  · intro a b c d s e f hl ha hb hc hd hs he hf
    have hiso : isExactIso (jsTrim l) = false := by rw [hl]; rfl
    have hm1 : findM1 (jsTrim l) = none := by rw [hl]; rfl
    have hm2 : findM2 (jsTrim l) = none := by rw [hl]; rfl
    have hm3 : matchM3 (jsTrim l) = some ([a, b, c, d], [e, f]) := by
      rw [hl]; simp [matchM3, ha, hb, hc, hd, hs, he, hf]
    simp [coerceIsoDate, coerceCore, hiso, hm1, hm2, hm3]
  · intro hiso hm1 hm2 hm3
    simp [coerceIsoDate, coerceCore, hiso, hm1, hm2, hm3]

/--
C1, witness: the amended theorem applied to the spec's four concrete
examples ("2027-01-01" unchanged, "06/07/2029" reordered, "2027/01"
month-extended, "June 2029" falls through all patterns).
-/
theorem coerceIsoDate_spec_witness :
    coerceIsoDate "2027-01-01".data = "2027-01-01".data ∧
    coerceIsoDate "06/07/2029".data = "2029-07-06".data ∧
    coerceIsoDate "2027/01".data = "2027-01-01".data ∧
    coerceIsoDate "June 2029".data = "June 2029".data := by
  refine ⟨?_, ?_, ?_, ?_⟩
  · have h := (coerceIsoDate_spec "2027-01-01".data).1 (by decide)
    rw [h]; decide
  · have h := (coerceIsoDate_spec "06/07/2029".data).2.1 '0' '6' '/' '0' '7' '/' '2' '0' '2' '9'
      (by decide) (by decide) (by decide) (by decide) (by decide) (by decide)
      (by decide) (by decide) (by decide) (by decide) (by decide)
    rw [h]
  · have h := (coerceIsoDate_spec "2027/01".data).2.2.2.1 '2' '0' '2' '7' '/' '0' '1'
      (by decide) (by decide) (by decide) (by decide) (by decide) (by decide)
      (by decide) (by decide)
    rw [h]
  · have h := (coerceIsoDate_spec "June 2029".data).2.2.2.2
      (by decide) (by decide) (by decide) (by decide)
    rw [h]; decide

/-! ## Status derivation (`computeStatus`, src/unnamed/part_000) -/

/-- The three values of `UploadedImage.status`. -/
inductive ProdStatus where
  | valid
  | expiringSoon
  | expired
deriving DecidableEq

/-- Milliseconds per day, the divisor `1000 * 60 * 60 * 24`. -/
def msPerDay : Int := 86400000

/-- `Math.ceil (a / b)` for integer `a` and positive integer `b`.  The
source divides two exact integer millisecond values; for every date
representable by a JavaScript `Date` the float quotient rounds to the
same ceiling as the exact rational quotient, so the integer ceiling is
an exact model. -/
def ceilDiv (a b : Int) : Int := -((-a).fdiv b)

/-- `computeStatus` from src/unnamed/part_000.  JavaScript `Date` parsing
(`new Date(dateISO)` / `isNaN(target.getTime())`) is a platform service
and is abstracted as the function argument `parseDate`, returning the
parsed epoch milliseconds or `none` for an invalid date; `todayMs` is
the epoch milliseconds of `new Date()`. -/
def computeStatus (parseDate : String → Option Int) (todayMs : Int)
    (dateISO : String) : ProdStatus :=
  if jsTrim dateISO.data = [] then .valid
  else
    match parseDate dateISO with
    | none => .valid
    | some t =>
      let diffDays := ceilDiv (t - todayMs) msPerDay
      if diffDays < 0 then .expired
      else if diffDays ≤ 30 then .expiringSoon
      else .valid

/--
C2 (confirmed).  For every expiry-date string and fixed "today": an
empty (after trimming) or unparsable date yields Valid; otherwise, with
`d` the ceiling of the whole-day difference between the expiry instant
and today, `d < 0` yields Expired, `0 ≤ d ≤ 30` yields Expiring Soon and
`d > 30` yields Valid.
-/
theorem computeStatus_spec (parseDate : String → Option Int) (todayMs : Int)
    (s : String) :
    ((jsTrim s.data = [] ∨ parseDate s = none) →
      computeStatus parseDate todayMs s = .valid) ∧
    (∀ t : Int, jsTrim s.data ≠ [] → parseDate s = some t →
      ((ceilDiv (t - todayMs) msPerDay < 0 →
          computeStatus parseDate todayMs s = .expired) ∧
       (0 ≤ ceilDiv (t - todayMs) msPerDay → ceilDiv (t - todayMs) msPerDay ≤ 30 →
          computeStatus parseDate todayMs s = .expiringSoon) ∧
       (30 < ceilDiv (t - todayMs) msPerDay →
          computeStatus parseDate todayMs s = .valid))) := by
  constructor
  · rintro (h | h)
    · simp [computeStatus, h]
    · by_cases ht : jsTrim s.data = []
      · simp [computeStatus, ht]
      · simp [computeStatus, ht, h]
  · intro t ht hp
    refine ⟨?_, ?_, ?_⟩
    · intro hd
      simp [computeStatus, ht, hp, hd]
    · intro hd0 hd30
      have hd : ¬ ceilDiv (t - todayMs) msPerDay < 0 := by omega
      simp [computeStatus, ht, hp, hd, hd30]
    · intro hd30
      have hd : ¬ ceilDiv (t - todayMs) msPerDay < 0 := by omega
      have hd' : ¬ ceilDiv (t - todayMs) msPerDay ≤ 30 := by omega
      simp [computeStatus, ht, hp, hd, hd']

/--
C2, witness: with "today" fixed at epoch 0, an expiry 45 days out is
Valid, 10 days out is Expiring Soon, 1 day in the past is Expired, and
the empty string is Valid.
-/
theorem computeStatus_spec_witness :
    computeStatus (fun _ => some (45 * 86400000)) 0 "d" = .valid ∧
    computeStatus (fun _ => some (10 * 86400000)) 0 "d" = .expiringSoon ∧
    computeStatus (fun _ => some (-86400000)) 0 "d" = .expired ∧
    computeStatus (fun _ => some 0) 0 "" = .valid := by
  refine ⟨?_, ?_, ?_, ?_⟩
  · exact ((computeStatus_spec (fun _ => some (45 * 86400000)) 0 "d").2
      (45 * 86400000) (by decide) rfl).2.2 (by decide)
  · exact ((computeStatus_spec (fun _ => some (10 * 86400000)) 0 "d").2
      (10 * 86400000) (by decide) rfl).2.1 (by decide) (by decide)
  · exact ((computeStatus_spec (fun _ => some (-86400000)) 0 "d").2
      (-86400000) (by decide) rfl).1 (by decide)
  · exact (computeStatus_spec (fun _ => some 0) 0 "").1 (Or.inl (by decide))

/-! ## A model of JavaScript JSON values and `JSON.parse`

The analyze endpoint runs `JSON.parse` on a slice of the model reply and
reads the `product` / `expiryDate` / `expiry` / `date` properties of the
result.  We model JSON values with `JsValue`; numbers keep their source
lexeme (exact for the canonical integer lexemes; JavaScript's shortest
round-trip float formatting is not reproduced, which no claim exercises).
-/

/-- The opening brace character, written by code point to keep brace
characters out of string literals. -/
def braceL : Char := Char.ofNat 123

/-- The closing brace character. -/
def braceR : Char := Char.ofNat 125

/-- A JavaScript value produced by `JSON.parse`. -/
inductive JsValue where
  | null
  | bool (b : Bool)
  | num (lexeme : List Char)
  | str (s : List Char)
  | arr (items : List JsValue)
  | obj (fields : List (List Char × JsValue))

/-- JSON whitespace (the four characters allowed by the JSON grammar). -/
def jsonWs (c : Char) : Bool := c = ' ' || c = '\t' || c = '\n' || c = '\r'

/-- Value of a hexadecimal digit. -/
def hexVal (c : Char) : Option Nat :=
  if c.isDigit then some (c.toNat - 48)
  else if 'a' ≤ c ∧ c ≤ 'f' then some (c.toNat - 87)
  else if 'A' ≤ c ∧ c ≤ 'F' then some (c.toNat - 55)
  else none

/-- JSON string escape characters other than `\u`. -/
def escChar (e : Char) : Option Char :=
  if e = '"' then some '"'
  else if e = '\\' then some '\\'
  else if e = '/' then some '/'
  else if e = 'b' then some (Char.ofNat 8)
  else if e = 'f' then some (Char.ofNat 12)
  else if e = 'n' then some '\n'
  else if e = 'r' then some '\r'
  else if e = 't' then some '\t'
  else none

/-- Parse the body of a JSON string (the opening quote already consumed);
returns the decoded content and the remainder after the closing quote.
Raw control characters and invalid escapes are rejected, as by
`JSON.parse`.  A `\u` escape becomes the character with that code point
(lone surrogates, which `Char` cannot hold, are not modelled). -/
def parseJStr : List Char → Option (List Char × List Char)
  | [] => none
  | c :: rest =>
    if c = '"' then some ([], rest)
    else if c = '\\' then
      match rest with
      | [] => none
      | e :: rest2 =>
        if e = 'u' then
          match rest2 with
          | h1 :: h2 :: h3 :: h4 :: rest3 =>
            match hexVal h1, hexVal h2, hexVal h3, hexVal h4 with
            | some a, some b, some c2, some d =>
              (parseJStr rest3).map
                (fun p => (Char.ofNat (((a * 16 + b) * 16 + c2) * 16 + d) :: p.1, p.2))
            | _, _, _, _ => none
          | _ => none
        else
          match escChar e with
          | some ec => (parseJStr rest2).map (fun p => (ec :: p.1, p.2))
          | none => none
    else if c.toNat < 32 then none
    else (parseJStr rest).map (fun p => (c :: p.1, p.2))

/-- Parse a JSON number lexeme (grammar `-?(0|[1-9][0-9]*)(\.[0-9]+)?([eE][+-]?[0-9]+)?`),
keeping the matched lexeme.  Trailing garbage is left in the remainder
(and rejected by the caller at the end of the input, matching `JSON.parse`). -/
def parseJNum (l : List Char) : Option (List Char × List Char) :=
  let p :=
    match l with
    | '-' :: r => (['-'], r)
    | _ => (([] : List Char), l)
  let negPart := p.1
  let l1 := p.2
  match l1 with
  | [] => none
  | c :: _ =>
    if !c.isDigit then none
    else
      let intPart := if c = '0' then ['0'] else l1.takeWhile Char.isDigit
      let r1 := l1.drop intPart.length
      let q :=
        match r1 with
        | '.' :: d :: _ =>
          if d.isDigit then
            let ds := (r1.drop 1).takeWhile Char.isDigit
            ('.' :: ds, r1.drop (1 + ds.length))
          else (([] : List Char), r1)
        | _ => (([] : List Char), r1)
      let fracPart := q.1
      let r2 := q.2
      let w :=
        match r2 with
        | e :: rest =>
          if e = 'e' ∨ e = 'E' then
            match rest with
            | s :: rest2 =>
              if s = '+' ∨ s = '-' then
                match rest2 with
                | d :: _ =>
                  if d.isDigit then
                    let ds := rest2.takeWhile Char.isDigit
                    (e :: s :: ds, rest2.drop ds.length)
                  else (([] : List Char), r2)
                | [] => (([] : List Char), r2)
              else if s.isDigit then
                let ds := rest.takeWhile Char.isDigit
                (e :: ds, rest.drop ds.length)
              else (([] : List Char), r2)
            | [] => (([] : List Char), r2)
          else (([] : List Char), r2)
        | [] => (([] : List Char), r2)
      some (negPart ++ intPart ++ fracPart ++ w.1, w.2)

mutual

/-- Fuel-indexed recursive-descent parser for a JSON value; the fuel
chosen by `jsParse` is ample for any input of the given length. -/
def parseVal : Nat → List Char → Option (JsValue × List Char)
  | 0, _ => none
  | fuel + 1, l =>
    match l.dropWhile jsonWs with
    | 'n' :: 'u' :: 'l' :: 'l' :: r => some (.null, r)
    | 't' :: 'r' :: 'u' :: 'e' :: r => some (.bool true, r)
    | 'f' :: 'a' :: 'l' :: 's' :: 'e' :: r => some (.bool false, r)
    | '"' :: r => (parseJStr r).map (fun p => (.str p.1, p.2))
    | c :: r =>
      if c = braceL then
        match r.dropWhile jsonWs with
        | c2 :: r2 => if c2 = braceR then some (.obj [], r2) else parseMembers fuel (c2 :: r2) []
        | [] => none
      else if c = '[' then
        match r.dropWhile jsonWs with
        | ']' :: r2 => some (.arr [], r2)
        | r1 => parseItems fuel r1 []
      else if c = '-' || c.isDigit then
        (parseJNum (c :: r)).map (fun p => (.num p.1, p.2))
      else none
    | [] => none

/-- Parse the items of a non-empty JSON array (after the opening bracket). -/
def parseItems : Nat → List Char → List JsValue → Option (JsValue × List Char)
  | 0, _, _ => none
  | fuel + 1, l, acc =>
    match parseVal fuel l with
    | none => none
    | some (v, r) =>
      match r.dropWhile jsonWs with
      | ']' :: r2 => some (.arr (acc ++ [v]), r2)
      | ',' :: r2 => parseItems fuel r2 (acc ++ [v])
      | _ => none

/-- Parse the members of a non-empty JSON object (after the opening brace). -/
def parseMembers : Nat → List Char → List (List Char × JsValue) →
    Option (JsValue × List Char)
  | 0, _, _ => none
  | fuel + 1, l, acc =>
    match l.dropWhile jsonWs with
    | '"' :: r =>
      match parseJStr r with
      | none => none
      | some (key, r1) =>
        match r1.dropWhile jsonWs with
        | ':' :: r3 =>
          match parseVal fuel r3 with
          | none => none
          | some (v, r4) =>
            match r4.dropWhile jsonWs with
            | c :: r6 =>
              if c = braceR then some (.obj (acc ++ [(key, v)]), r6)
              else if c = ',' then parseMembers fuel r6 (acc ++ [(key, v)])
              else none
            | [] => none
        | _ => none
    | _ => none

end

/-- Model of `JSON.parse`: parse one value and require only whitespace
after it. -/
def jsParse (l : List Char) : Option JsValue :=
  match parseVal (2 * l.length + 8) l with
  | some (v, rest) => if rest.dropWhile jsonWs = [] then some v else none
  | none => none

mutual

/-- Model of JavaScript `String(v)` on a `JSON.parse` result: strings
pass through, `null`/booleans print their keyword, numbers print their
lexeme (exact for canonical integer lexemes), arrays join their elements
with commas (null elements print empty) and plain objects print
"[object Object]". -/
def jsToString : JsValue → List Char
  | .null => "null".data
  | .bool true => "true".data
  | .bool false => "false".data
  | .num lexeme => lexeme
  | .str s => s
  | .obj _ => "[object Object]".data
  | .arr items => jsToStringItems items

/-- Comma-joined stringification of array elements. -/
def jsToStringItems : List JsValue → List Char
  | [] => []
  | [x] =>
    match x with
    | .null => []
    | v => jsToString v
  | x :: rest =>
    (match x with
     | .null => []
     | v => jsToString v) ++ ',' :: jsToStringItems rest

end

/-- Whether the value is JavaScript `null` (property access on it throws). -/
def isNullV : JsValue → Bool
  | .null => true
  | _ => false

/-- Property lookup on the field list of a parsed JSON object: with
duplicate keys the later entry wins, as in `JSON.parse`. -/
def lookupLast (fields : List (List Char × JsValue)) (key : List Char) : Option JsValue :=
  match fields with
  | [] => none
  | (k, v) :: rest =>
    match lookupLast rest key with
    | some r => some r
    | none => if k = key then some v else none

/-- `v.key` for a non-null JavaScript value: a field of an object, and
`undefined` (`none`) otherwise.  (Built-in properties such as `length`,
never read by the source, are not modelled.) -/
def getPropD (v : JsValue) (key : List Char) : Option JsValue :=
  match v with
  | .obj fields => lookupLast fields key
  | _ => none

/-- The nullish-coalescing operator `x ?? dflt` applied to a possibly
undefined property value. -/
def nullishD (o : Option JsValue) (dflt : JsValue) : JsValue :=
  match o with
  | some .null => dflt
  | some v => v
  | none => dflt

/-- JavaScript truthiness of a `JSON.parse` result: `null`, `false`, the
empty string and numeric zero are falsy; everything else is truthy. -/
def jsTruthy : JsValue → Bool
  | .null => false
  | .bool b => b
  | .num lexeme =>
    !((lexeme.takeWhile (fun c => c ≠ 'e' ∧ c ≠ 'E')).all (fun c => !c.isDigit || c = '0'))
  | .str s => !s.isEmpty
  | .arr _ => true
  | .obj _ => true

/-! ## The analyze endpoint's reply parser (POST /api/analyze) -/

/-- `rawText.indexOf(c)` as an optional position. -/
def firstIdx (c : Char) : List Char → Option Nat
  | [] => none
  | a :: rest => if a = c then some 0 else (firstIdx c rest).map (· + 1)

/-- `rawText.lastIndexOf(c)` as an optional position. -/
def lastIdx (c : Char) : List Char → Option Nat
  | [] => none
  | a :: rest =>
    match lastIdx c rest with
    | some k => some (k + 1)
    | none => if a = c then some 0 else none

/-- The `raw` slice of the source: from the first opening brace to the
last closing brace inclusive when both exist, the whole reply otherwise. -/
def sliceRaw (l : List Char) : List Char :=
  match firstIdx braceL l, lastIdx braceR l with
  | some i, some j => (l.drop i).take (j + 1 - i)
  | _, _ => l

/-- The `try` branch of the reply parser: `JSON.parse(raw)`, then
`product = String(parsed.product ?? "").trim().slice(0, 120)` and
`expiryDate = coerceIsoDate(String(parsed.expiryDate ?? parsed.expiry ??
parsed.date ?? ""))` when that value is truthy.  A reply parsing to
`null` throws on the first property access before any assignment, hence
behaves as a parse failure (`none`). -/
def tryJsonPath (raw : List Char) : Option (List Char × List Char) :=
  match jsParse raw with
  | none => none
  | some v =>
    if isNullV v then none
    else
      let product := (jsTrim (jsToString (nullishD (getPropD v "product".data) (.str [])))).take 120
      let rawExpiry := nullishD (getPropD v "expiryDate".data)
        (nullishD (getPropD v "expiry".data) (nullishD (getPropD v "date".data) (.str [])))
      let expiry := if jsTruthy rawExpiry then coerceIsoDate (jsToString rawExpiry) else []
      some (product, expiry)

/-- Line terminators not matched by the regex `.` metacharacter. -/
def lineTerm (c : Char) : Bool :=
  c = '\n' || c = '\r' || c = Char.ofNat 8232 || c = Char.ofNat 8233

/-- Match of the capture group `((?:[^"\\]|\\.)*)` followed by a closing
quote, starting at the given position: a backslash consumes the next
character (unless a line terminator), and the first bare quote closes
the group.  Returns the group as matched (escapes not yet decoded). -/
def readGroup : List Char → Option (List Char)
  | [] => none
  | c :: rest =>
    if c = '"' then some []
    else if c = '\\' then
      match rest with
      | [] => none
      | d :: rest2 => if lineTerm d then none else (readGroup rest2).map (fun g => '\\' :: d :: g)
    else (readGroup rest).map (fun g => c :: g)

/-- After a matched key literal: `\s*`, a colon, `\s*`, an opening quote,
then the quoted group. -/
def afterKeyGroup (l : List Char) : Option (List Char) :=
  match l.dropWhile jsSpaceChar with
  | ':' :: r =>
    match r.dropWhile jsSpaceChar with
    | '"' :: r2 => readGroup r2
    | _ => none
  | _ => none

/-- Leftmost match of `key + colon + quoted group` over the reply, the
search order of `String.prototype.match` with an unanchored regex. -/
def scanKey (key : List Char) : List Char → Option (List Char)
  | [] => none
  | c :: rest =>
    if key.isPrefixOf (c :: rest) then
      match afterKeyGroup ((c :: rest).drop key.length) with
      | some g => some g
      | none => scanKey key rest
    else scanKey key rest

/-- `.replace(/\\"/g, '"')`: rewrite every backslash-quote pair to a bare
quote, scanning left to right. -/
def replEscQuote : List Char → List Char
  | [] => []
  | '\\' :: '"' :: rest => '"' :: replEscQuote rest
  | c :: rest => c :: replEscQuote rest

/-- The literal `"product"` key of the fallback regex. -/
def productKeyPat : List Char := "\"product\"".data

/-- The literal `"expiryDate"` key of the fallback regex. -/
def expiryKeyPat : List Char := "\"expiryDate\"".data

/-- The `catch` branch of the reply parser: regex extraction of the two
quoted values over the FULL reply text, with escaped-quote unescaping;
a field whose regex does not match stays empty. -/
def fallbackExtract (rawText : List Char) : List Char × List Char :=
  (match scanKey productKeyPat rawText with
   | some g => replEscQuote g
   | none => [],
   match scanKey expiryKeyPat rawText with
   | some g => coerceIsoDate (replEscQuote g)
   | none => [])

/-- The complete reply parser of the analyze endpoint (lines 197 to 211 of
the route): slice from the first opening to the last closing brace, try
the JSON path, and fall back to regex extraction on failure. -/
def parseReplyL (rawText : List Char) : List Char × List Char :=
  match tryJsonPath (sliceRaw rawText) with
  | some r => r
  | none => fallbackExtract rawText

/-- The placeholder test `/^product_\d+$/.test(...)`. -/
def isPlaceholder : List Char → Bool
  | 'p' :: 'r' :: 'o' :: 'd' :: 'u' :: 'c' :: 't' :: '_' :: rest =>
    !rest.isEmpty && rest.all Char.isDigit
  | _ => false

/-- The manual-override block (lines 213 to 219): a trimmed, non-empty,
non-placeholder product override replaces the product, truncated to 120
characters; a date override with a non-blank trim replaces the expiry
with `coerceIsoDate` of the UNtrimmed override.  `none` models an absent
or non-string form field. -/
def applyOverrides (extracted : List Char × List Char)
    (manualProduct manualDate : Option (List Char)) : List Char × List Char :=
  let manual := match manualProduct with
    | some s => jsTrim s
    | none => []
  let e1 := if !manual.isEmpty && !isPlaceholder manual then (manual.take 120, extracted.2)
            else extracted
  match manualDate with
  | some d => if !(jsTrim d).isEmpty then (e1.1, coerceIsoDate d) else e1
  | none => e1

/-- The `{product, expiryDate}` output of a successful analyze request as
a function of the model reply text and the two manual overrides. -/
def analyzeOutput (rawText : List Char)
    (manualProduct manualDate : Option (List Char)) : List Char × List Char :=
  applyOverrides (parseReplyL rawText) manualProduct manualDate

example : jsParse "\"ab\"".data = some (.str "ab".data) := by rfl
example : jsParse " 12 ".data = some (.num "12".data) := by rfl
example : jsParse "nope".data = none := by rfl
example :
    parseReplyL (braceL :: "\"product\":\"A\",\"expiryDate\":\"2027-01-01\"".data ++ [braceR]) =
      ("A".data, "2027-01-01".data) := by rfl
example : parseReplyL "\"product\": \"B\" junk".data = ("B".data, []) := by rfl
example : parseReplyL "utter garbage".data = ([], []) := by rfl
example : analyzeOutput "x".data (some " product_1".data) none = ([], []) := by rfl

/-! ## C3: the reply parser's recovery and fallback chain -/

/-- The spec's example reply object, used to state prose-wrapping recovery. -/
def sExampleReply : List Char :=
  braceL :: "\"product\":\"SHARPS CONTAINER 10L\",\"expiryDate\":\"2027-01-01\"".data ++ [braceR]

lemma firstIdx_not_mem (c : Char) (l : List Char) (h : c ∉ l) : firstIdx c l = none := by
  induction l with
  | nil => rfl
  | cons a rest ih =>
    simp only [List.mem_cons, not_or] at h
    have ha : ¬ a = c := fun he => h.1 he.symm
    simp [firstIdx, ha, ih h.2]

lemma firstIdx_append_of_not_mem (c : Char) (l1 l2 : List Char) (h : c ∉ l1) :
    firstIdx c (l1 ++ l2) = (firstIdx c l2).map (fun k => l1.length + k) := by
  induction l1 with
  | nil =>
    simp only [List.nil_append, List.length_nil]
    cases firstIdx c l2 <;> simp
  | cons a rest ih =>
    simp only [List.mem_cons, not_or] at h
    have ha : ¬ a = c := fun he => h.1 he.symm
    simp only [List.cons_append, firstIdx, ha, if_false, List.append_eq, ih h.2,
      List.length_cons]
    cases firstIdx c l2 with
    | none => rfl
    | some k =>
      simp only [Option.map_map, Option.map_some']
      congr 1
      omega

lemma lastIdx_not_mem (c : Char) (l : List Char) (h : c ∉ l) : lastIdx c l = none := by
  induction l with
  | nil => rfl
  | cons a rest ih =>
    simp only [List.mem_cons, not_or] at h
    have ha : ¬ a = c := fun he => h.1 he.symm
    simp [lastIdx, ha, ih h.2]

lemma lastIdx_append_right_none (c : Char) (l1 l2 : List Char)
    (h : lastIdx c l2 = none) : lastIdx c (l1 ++ l2) = lastIdx c l1 := by
  induction l1 with
  | nil => simpa using h
  | cons a rest ih =>
    simp only [List.cons_append, lastIdx, List.append_eq]
    rw [ih]

lemma lastIdx_append_right_some (c : Char) (l1 l2 : List Char) (k : Nat)
    (h : lastIdx c l2 = some k) : lastIdx c (l1 ++ l2) = some (l1.length + k) := by
  induction l1 with
  | nil => simpa using h
  | cons a rest ih =>
    simp only [List.cons_append, lastIdx, List.append_eq]
    rw [ih]
    simp only [List.length_cons]
    congr 1
    omega

/--
C3 (confirmed).  The reply parser takes the substring from the first
opening brace to the last closing brace and attempts JSON parsing; on
JSON failure it falls back to regex extraction of the `product` and
`expiryDate` quoted values with escaped-quote unescaping; if every parse
path fails it yields empty strings for both fields instead of raising.
Clause 1: the spec's example object wrapped in ANY prose (no opening
brace before it, no closing brace after it) is still recovered exactly.
Clauses 2 and 3: when the JSON path fails, the output is exactly the
regex fallback, and empty-empty when the regexes also fail.
-/
theorem parseReply_spec :
    (∀ pre post : List Char, braceL ∉ pre → braceR ∉ post →
      parseReplyL (pre ++ sExampleReply ++ post) =
        ("SHARPS CONTAINER 10L".data, "2027-01-01".data)) ∧
    (∀ r : List Char, tryJsonPath (sliceRaw r) = none →
      scanKey productKeyPat r = none → scanKey expiryKeyPat r = none →
      parseReplyL r = ([], [])) ∧
    (∀ r p e : List Char, tryJsonPath (sliceRaw r) = none →
      scanKey productKeyPat r = some p → scanKey expiryKeyPat r = some e →
      parseReplyL r = (replEscQuote p, coerceIsoDate (replEscQuote e))) := by
  refine ⟨?_, ?_, ?_⟩
  · intro pre post hpre hpost
    have hfirst : firstIdx braceL (pre ++ (sExampleReply ++ post)) = some pre.length := by
      rw [firstIdx_append_of_not_mem braceL pre (sExampleReply ++ post) hpre]
      have hhead : firstIdx braceL (sExampleReply ++ post) = some 0 := by
        simp [sExampleReply, firstIdx]
      rw [hhead]
      simp
    have hinner : lastIdx braceR sExampleReply = some (sExampleReply.length - 1) := by decide
    have hlast : lastIdx braceR (pre ++ (sExampleReply ++ post)) =
        some (pre.length + (sExampleReply.length - 1)) := by
      rw [lastIdx_append_right_some braceR pre (sExampleReply ++ post)
        (sExampleReply.length - 1)]
      rw [lastIdx_append_right_none braceR sExampleReply post
        (lastIdx_not_mem braceR post hpost)]
      exact hinner
    have harith : pre.length + (sExampleReply.length - 1) + 1 - pre.length =
        sExampleReply.length := by
      have h1 : 1 ≤ sExampleReply.length := by decide
      omega
    have hslice : sliceRaw (pre ++ sExampleReply ++ post) = sExampleReply := by
      rw [List.append_assoc]
      simp only [sliceRaw, hfirst, hlast, harith]
      rw [List.drop_left, List.take_left]
    have htry : tryJsonPath sExampleReply =
        some ("SHARPS CONTAINER 10L".data, "2027-01-01".data) := by decide
    simp only [parseReplyL, hslice, htry]
  · intro r h1 h2 h3
    simp only [parseReplyL, h1, fallbackExtract, h2, h3]
  · intro r p e h1 h2 h3
    simp only [parseReplyL, h1, fallbackExtract, h2, h3]

/--
C3, witness: the example reply wrapped in concrete prose is recovered,
and a brace-free unparseable reply yields empty strings for both fields.
-/
theorem parseReply_spec_witness :
    parseReplyL ("Sure, here it is: ".data ++ sExampleReply ++ " Anything else?".data) =
      ("SHARPS CONTAINER 10L".data, "2027-01-01".data) ∧
    parseReplyL "no json to be found".data = ([], []) := by
  constructor
  · exact parseReply_spec.1 "Sure, here it is: ".data " Anything else?".data
      (by decide) (by decide)
  · exact parseReply_spec.2.1 "no json to be found".data (by decide) (by decide) (by decide)

/-! ## C4: length bound on the returned product -/

/-- A model reply with no braces whose fallback-extracted product has 121
characters. -/
def longReply : List Char := "\"product\":\"".data ++ List.replicate 121 'a' ++ ['"']

set_option maxRecDepth 8000 in
/--
C4, counterexample.  The claim bounds the product of every successful
analyze output by 120 characters; a reply that fails JSON parsing but
matches the fallback product regex with a 121-character value is
returned untruncated (the `catch` branch has no `.slice(0, 120)`).
-/
theorem analyze_product_len_cex :
    (analyzeOutput longReply none none).1.length = 121 := by decide

lemma tryJsonPath_product_le (r : List Char) (v : List Char × List Char)
    (h : tryJsonPath r = some v) : v.1.length ≤ 120 := by
  cases hj : jsParse r with
  | none =>
    simp only [tryJsonPath, hj] at h
    exact absurd h (by simp)
  | some w =>
    simp only [tryJsonPath, hj] at h
    by_cases hn : isNullV w = true
    · rw [if_pos hn] at h
      exact absurd h (by simp)
    · rw [if_neg hn] at h
      injection h with h2
      rw [← h2, List.length_take]
      exact Nat.min_le_left _ _

lemma applyOverrides_fst_override (ex : List Char × List Char) (s : List Char)
    (md : Option (List Char)) (h1 : (jsTrim s).isEmpty = false)
    (h2 : isPlaceholder (jsTrim s) = false) :
    (applyOverrides ex (some s) md).1 = (jsTrim s).take 120 := by
  unfold applyOverrides
  simp only [h1, h2, Bool.not_false, Bool.and_self, if_true]
  cases md with
  | none => rfl
  | some d =>
    by_cases hd : (jsTrim d).isEmpty = true <;> simp [hd]

lemma applyOverrides_fst_cases (ex : List Char × List Char)
    (mp md : Option (List Char)) :
    (applyOverrides ex mp md).1 = ex.1 ∨
      ∃ s, (applyOverrides ex mp md).1 = (jsTrim s).take 120 := by
  unfold applyOverrides
  cases mp with
  | none =>
    cases md with
    | none => exact Or.inl rfl
    | some d =>
      by_cases hd : (jsTrim d).isEmpty = true <;> simp [hd]
  | some s =>
    by_cases hc : (!(jsTrim s).isEmpty && !isPlaceholder (jsTrim s)) = true
    · refine Or.inr ⟨s, ?_⟩
      simp only [hc, if_true]
      cases md with
      | none => rfl
      | some d => by_cases hd : (jsTrim d).isEmpty = true <;> simp [hd]
    · refine Or.inl ?_
      simp only [Bool.not_eq_true] at hc
      simp only [hc, if_false]
      cases md with
      | none => rfl
      | some d => by_cases hd : (jsTrim d).isEmpty = true <;> simp [hd]

/--
C4 (amended).  The product string of the analyze output has length at
most 120 whenever the JSON parse path succeeds on the brace slice or a
manual product override is applied; the regex-fallback path copies the
matched value without truncation and can exceed 120 characters (see the
counterexample).
-/
theorem analyze_product_len_spec (raw : List Char) (mp md : Option (List Char))
    (h : (∃ v, tryJsonPath (sliceRaw raw) = some v) ∨
      (∃ s, mp = some s ∧ (jsTrim s).isEmpty = false ∧ isPlaceholder (jsTrim s) = false)) :
    (analyzeOutput raw mp md).1.length ≤ 120 := by
  rcases h with ⟨v, hv⟩ | ⟨s, hmp, h1, h2⟩
  · have hbase : parseReplyL raw = v := by
      simp only [parseReplyL, hv]
    have hv120 : v.1.length ≤ 120 := tryJsonPath_product_le _ v hv
    unfold analyzeOutput
    rw [hbase]
    rcases applyOverrides_fst_cases v mp md with h | ⟨s, h⟩
    · rw [h]; exact hv120
    · rw [h, List.length_take]; exact Nat.min_le_left _ _
  · subst hmp
    unfold analyzeOutput
    rw [applyOverrides_fst_override _ s md h1 h2, List.length_take]
    exact Nat.min_le_left _ _

/--
C4, witness: the amended theorem applied to the spec's example reply with
no overrides.
-/
theorem analyze_product_len_spec_witness :
    (analyzeOutput sExampleReply none none).1.length ≤ 120 :=
  analyze_product_len_spec sExampleReply none none
    (Or.inl ⟨("SHARPS CONTAINER 10L".data, "2027-01-01".data), by decide⟩)

/-! ## The session relay endpoint (GET / POST /api/session/sessionId)

The session store is a process-wide map from session ids to session
states.  `Date.now()` is a platform clock, passed in as the `now`
argument (a natural number of epoch milliseconds); JavaScript prints it
in decimal inside the template literal for image ids, modelled by
`natRepr`.
-/

/-- The decimal digit character for `d < 10`. -/
def digitChar (d : Nat) : Char := Char.ofNat (48 + d)

/-- Fuel-driven decimal printing helper; the fuel `n + 1` always suffices. -/
def natReprAux : Nat → Nat → List Char
  | 0, _ => []
  | fuel + 1, n =>
    if n < 10 then [digitChar n]
    else natReprAux fuel (n / 10) ++ [digitChar (n % 10)]

/-- Decimal representation of a natural number, as the JavaScript template
literal prints a non-negative integer. -/
def natRepr (n : Nat) : List Char := natReprAux (n + 1) n

/-- The image id template `mobile-(Date.now())-(state.images.length)`. -/
def mkId (now len : Nat) : List Char :=
  "mobile-".data ++ (natRepr now ++ '-' :: natRepr len)

/-- A `SessionImage` record. -/
structure SessionImage where
  id : List Char
  dataUrl : List Char
  product : List Char
  expiryDate : List Char
deriving DecidableEq

/-- A `SessionState` record. -/
structure SessionState where
  mobileConnected : Bool
  webConnected : Bool
  command : Option (List Char)
  images : List SessionImage
deriving DecidableEq

/-- The default state installed by `getOrCreate` for an unseen id. -/
def defaultSession : SessionState :=
  { mobileConnected := false, webConnected := false, command := none, images := [] }

/-- The base64 alphabet. -/
def b64Alphabet : List Char :=
  "ABCDEFGHIJKLMNOPQRSTUVWXYZabcdefghijklmnopqrstuvwxyz0123456789+/".data

/-- The base64 character for a 6-bit value. -/
def b64Char (n : Nat) : Char := b64Alphabet.getD n 'A'

/-- Standard base64 encoding of a byte list (model of
`buffer.toString("base64")`; bytes are reduced mod 256). -/
def b64Encode : List Nat → List Char
  | [] => []
  | [a] => [b64Char (a % 256 / 4), b64Char (a % 256 % 4 * 16), '=', '=']
  | [a, b] =>
    [b64Char (a % 256 / 4), b64Char (a % 256 % 4 * 16 + b % 256 / 16),
     b64Char (b % 256 % 16 * 4), '=']
  | a :: b :: c :: rest =>
    b64Char (a % 256 / 4) :: b64Char (a % 256 % 4 * 16 + b % 256 / 16) ::
    b64Char (b % 256 % 16 * 4 + c % 256 / 64) :: b64Char (c % 256 % 64) :: b64Encode rest

/-- A multipart file field: declared MIME type and content bytes
(`file.size` is the byte count). -/
structure MFile where
  ftype : List Char
  bytes : List Nat
deriving DecidableEq

/-- `bufferToDataUrl` from the route: `data:` plus the MIME type (or
`image/jpeg` when empty) plus `;base64,` plus the base64 payload. -/
def bufferToDataUrl (bytes : List Nat) (mime : List Char) : List Char :=
  "data:".data ++ (if mime.isEmpty then "image/jpeg".data else mime) ++
    ";base64,".data ++ b64Encode bytes

/-- The multipart branch of the session POST handler: a file field named
"image" with positive size appends one `SessionImage` (generated id, the
re-encoded data URL, empty product and expiry); anything else, including
a formData parse failure, leaves the state unchanged.  `none` models a
missing or non-`File` field or a malformed form. -/
def postMultipart (st : SessionState) (now : Nat) (file : Option MFile) : SessionState :=
  match file with
  | none => st
  | some f =>
    if 0 < f.bytes.length then
      { st with images := st.images ++
          [{ id := mkId now st.images.length,
             dataUrl := bufferToDataUrl f.bytes (if f.ftype.isEmpty then "image/jpeg".data else f.ftype),
             product := [], expiryDate := [] }] }
    else st

/-- `typeof x === "boolean"` on an optional property value. -/
def asBool : Option JsValue → Option Bool
  | some (.bool b) => some b
  | _ => none

/-- `typeof x === "string"` on an optional property value. -/
def asStr : Option JsValue → Option (List Char)
  | some (.str s) => some s
  | _ => none

/-- `if (typeof body.mobileConnected === "boolean") state.mobileConnected = ...`. -/
def mobUpdate (st : SessionState) (o : Option JsValue) : SessionState :=
  match asBool o with
  | some v => { st with mobileConnected := v }
  | none => st

/-- `if (typeof body.webConnected === "boolean") state.webConnected = ...`. -/
def webUpdate (st : SessionState) (o : Option JsValue) : SessionState :=
  match asBool o with
  | some v => { st with webConnected := v }
  | none => st

/-- `if (body.command !== undefined) state.command = body.command === null ? null : String(body.command)`. -/
def cmdUpdate (st : SessionState) (o : Option JsValue) : SessionState :=
  match o with
  | none => st
  | some v => { st with command := if isNullV v then none else some (jsToString v) }

/-- `if (typeof body.image === "string" && body.image.length > 0)` append. -/
def imgUpdate (st : SessionState) (now : Nat) (o : Option JsValue) : SessionState :=
  match asStr o with
  | some s =>
    if 0 < s.length then
      { st with images := st.images ++
          [{ id := mkId now st.images.length, dataUrl := s, product := [], expiryDate := [] }] }
    else st
  | none => st

/-- The JSON branch of the session POST handler.  `none` models a body
whose JSON parsing failed (the `catch` no-op); a `null` body throws on
the first property access before any mutation, hence also no-ops. -/
def postJson (st : SessionState) (now : Nat) (body : Option JsValue) : SessionState :=
  match body with
  | none => st
  | some b =>
    if isNullV b then st
    else
      imgUpdate
        (cmdUpdate
          (webUpdate
            (mobUpdate st (getPropD b "mobileConnected".data))
            (getPropD b "webConnected".data))
          (getPropD b "command".data))
        now (getPropD b "image".data)

/-- The process-wide session map, as an association list. -/
abbrev Store := List (String × SessionState)

/-- `sessions.get(sessionId)`. -/
def lookupS : Store → String → Option SessionState
  | [], _ => none
  | (k, v) :: rest, sid => if k = sid then some v else lookupS rest sid

/-- `getOrCreate` from the route: install the default state for an unseen
id, then return the session (and the possibly extended store). -/
def getOrCreate (store : Store) (sessionId : String) : SessionState × Store :=
  match lookupS store sessionId with
  | some s => (s, store)
  | none => (defaultSession, (sessionId, defaultSession) :: store)

/-- The response of the GET handler. -/
inductive GetResult where
  | ok (s : SessionState)
  | clientError (code : Nat)
deriving DecidableEq

/-- The GET handler: 400 for a missing (empty) session id, otherwise the
full state of the (possibly just created) session. -/
def handleGET (store : Store) (sessionId : String) : GetResult × Store :=
  if sessionId = "" then (.clientError 400, store)
  else
    ((getOrCreate store sessionId).1 |> .ok, (getOrCreate store sessionId).2)

/-- One request against a single session: a GET (which does not change an
existing session's state) or one of the two POST encodings. -/
inductive SessionOp where
  | getOp
  | multipartPost (now : Nat) (file : Option MFile)
  | jsonPost (now : Nat) (body : Option JsValue)

/-- Effect of one request on one session's state. -/
def applyOp (st : SessionState) : SessionOp → SessionState
  | .getOp => st
  | .multipartPost now f => postMultipart st now f
  | .jsonPost now b => postJson st now b

/-- Effect of a request sequence on one session's state. -/
def runOps (st : SessionState) (ops : List SessionOp) : SessionState :=
  ops.foldl applyOp st

/-- Every image in the list carries an id generated from some timestamp
and its own position, positions counted from `k`. -/
def idsFrom : Nat → List SessionImage → Prop
  | _, [] => True
  | k, img :: rest => (∃ t, img.id = mkId t k) ∧ idsFrom (k + 1) rest

example : b64Encode [0] = "AA==".data := by decide
example : b64Encode [77, 97, 110] = "TWFu".data := by decide
example : natRepr 120 = "120".data := by decide
example : mkId 99 1 = "mobile-99-1".data := by decide
example :
    postJson defaultSession 5 (some (.obj [("mobileConnected".data, .bool true)])) =
      { defaultSession with mobileConnected := true } := by decide
example :
    (postMultipart defaultSession 7 (some ⟨"image/png".data, [1, 2]⟩)).images =
      [{ id := "mobile-7-0".data, dataUrl := "data:image/png;base64,AQI=".data,
         product := [], expiryDate := [] }] := by decide

/-! ## C5: partial-update semantics of the JSON POST -/

lemma mobUpdate_web (st : SessionState) (o : Option JsValue) :
    (mobUpdate st o).webConnected = st.webConnected := by
  unfold mobUpdate; cases asBool o <;> rfl

lemma mobUpdate_cmd (st : SessionState) (o : Option JsValue) :
    (mobUpdate st o).command = st.command := by
  unfold mobUpdate; cases asBool o <;> rfl

lemma mobUpdate_images (st : SessionState) (o : Option JsValue) :
    (mobUpdate st o).images = st.images := by
  unfold mobUpdate; cases asBool o <;> rfl

lemma mobUpdate_mob (st : SessionState) (o : Option JsValue) :
    (mobUpdate st o).mobileConnected =
      (match asBool o with
       | some v => v
       | none => st.mobileConnected) := by
  unfold mobUpdate; cases asBool o <;> rfl

lemma webUpdate_mob (st : SessionState) (o : Option JsValue) :
    (webUpdate st o).mobileConnected = st.mobileConnected := by
  unfold webUpdate; cases asBool o <;> rfl

lemma webUpdate_cmd (st : SessionState) (o : Option JsValue) :
    (webUpdate st o).command = st.command := by
  unfold webUpdate; cases asBool o <;> rfl

lemma webUpdate_images (st : SessionState) (o : Option JsValue) :
    (webUpdate st o).images = st.images := by
  unfold webUpdate; cases asBool o <;> rfl

lemma webUpdate_web (st : SessionState) (o : Option JsValue) :
    (webUpdate st o).webConnected =
      (match asBool o with
       | some v => v
       | none => st.webConnected) := by
  unfold webUpdate; cases asBool o <;> rfl

lemma cmdUpdate_mob (st : SessionState) (o : Option JsValue) :
    (cmdUpdate st o).mobileConnected = st.mobileConnected := by
  unfold cmdUpdate; cases o <;> rfl

lemma cmdUpdate_web (st : SessionState) (o : Option JsValue) :
    (cmdUpdate st o).webConnected = st.webConnected := by
  unfold cmdUpdate; cases o <;> rfl

lemma cmdUpdate_images (st : SessionState) (o : Option JsValue) :
    (cmdUpdate st o).images = st.images := by
  unfold cmdUpdate; cases o <;> rfl

lemma cmdUpdate_cmd (st : SessionState) (o : Option JsValue) :
    (cmdUpdate st o).command =
      (match o with
       | none => st.command
       | some v => if isNullV v then none else some (jsToString v)) := by
  unfold cmdUpdate; cases o <;> rfl

lemma imgUpdate_mob (st : SessionState) (now : Nat) (o : Option JsValue) :
    (imgUpdate st now o).mobileConnected = st.mobileConnected := by
  unfold imgUpdate
  cases asStr o with
  | none => rfl
  | some s => by_cases h : 0 < s.length <;> simp [h]

lemma imgUpdate_web (st : SessionState) (now : Nat) (o : Option JsValue) :
    (imgUpdate st now o).webConnected = st.webConnected := by
  unfold imgUpdate
  cases asStr o with
  | none => rfl
  | some s => by_cases h : 0 < s.length <;> simp [h]

lemma imgUpdate_cmd (st : SessionState) (now : Nat) (o : Option JsValue) :
    (imgUpdate st now o).command = st.command := by
  unfold imgUpdate
  cases asStr o with
  | none => rfl
  | some s => by_cases h : 0 < s.length <;> simp [h]

lemma imgUpdate_images (st : SessionState) (now : Nat) (o : Option JsValue) :
    (imgUpdate st now o).images =
      (match asStr o with
       | some s =>
         if 0 < s.length then
           st.images ++ [{ id := mkId now st.images.length, dataUrl := s,
                           product := [], expiryDate := [] }]
         else st.images
       | none => st.images) := by
  unfold imgUpdate
  cases asStr o with
  | none => rfl
  | some s => by_cases h : 0 < s.length <;> simp [h]

lemma postJson_some (st : SessionState) (now : Nat) (b : JsValue)
    (hb : isNullV b = false) :
    postJson st now (some b) =
      imgUpdate
        (cmdUpdate
          (webUpdate
            (mobUpdate st (getPropD b "mobileConnected".data))
            (getPropD b "webConnected".data))
          (getPropD b "command".data))
        now (getPropD b "image".data) := by
  simp [postJson, hb]

/--
C5 (confirmed).  For every session state and JSON-body POST: a body whose
JSON parsing fails (or parses to `null`, which throws before any
mutation) leaves the session unchanged; a present boolean
`mobileConnected`/`webConnected` overwrites exactly that flag; a present
`command` overwrites the command (`null` clears it, a string sets it); a
present non-empty string `image` appends exactly one `SessionImage`; and
every attribute whose field is absent or ill-typed is unchanged.  The
handler returns the resulting state itself (`postJson`'s value).
-/
theorem postJson_spec (st : SessionState) (now : Nat) (b : JsValue)
    (hb : isNullV b = false) :
    postJson st now none = st ∧
    postJson st now (some .null) = st ∧
    (∀ v, getPropD b "mobileConnected".data = some (.bool v) →
      (postJson st now (some b)).mobileConnected = v) ∧
    (asBool (getPropD b "mobileConnected".data) = none →
      (postJson st now (some b)).mobileConnected = st.mobileConnected) ∧
    (∀ v, getPropD b "webConnected".data = some (.bool v) →
      (postJson st now (some b)).webConnected = v) ∧
    (asBool (getPropD b "webConnected".data) = none →
      (postJson st now (some b)).webConnected = st.webConnected) ∧
    (getPropD b "command".data = some .null →
      (postJson st now (some b)).command = none) ∧
    (∀ s, getPropD b "command".data = some (.str s) →
      (postJson st now (some b)).command = some s) ∧
    (getPropD b "command".data = none →
      (postJson st now (some b)).command = st.command) ∧
    (∀ s, getPropD b "image".data = some (.str s) → 0 < s.length →
      (postJson st now (some b)).images =
        st.images ++ [{ id := mkId now st.images.length, dataUrl := s,
                        product := [], expiryDate := [] }]) ∧
    (asStr (getPropD b "image".data) = none →
      (postJson st now (some b)).images = st.images) ∧
    (∀ s, getPropD b "image".data = some (.str s) → s.length = 0 →
      (postJson st now (some b)).images = st.images) := by
  refine ⟨rfl, rfl, ?_, ?_, ?_, ?_, ?_, ?_, ?_, ?_, ?_, ?_⟩
  · intro v h
    rw [postJson_some st now b hb, imgUpdate_mob, cmdUpdate_mob, webUpdate_mob,
      mobUpdate_mob, h]
    rfl
  · intro h
    rw [postJson_some st now b hb, imgUpdate_mob, cmdUpdate_mob, webUpdate_mob,
      mobUpdate_mob, h]
  · intro v h
    rw [postJson_some st now b hb, imgUpdate_web, cmdUpdate_web, webUpdate_web, h,
      mobUpdate_web]
    rfl
  · intro h
    rw [postJson_some st now b hb, imgUpdate_web, cmdUpdate_web, webUpdate_web, h,
      mobUpdate_web]
  · intro h
    rw [postJson_some st now b hb, imgUpdate_cmd, cmdUpdate_cmd, h]
    rfl
  · intro s h
    rw [postJson_some st now b hb, imgUpdate_cmd, cmdUpdate_cmd, h]
    rfl
  · intro h
    rw [postJson_some st now b hb, imgUpdate_cmd, cmdUpdate_cmd, h, webUpdate_cmd,
      mobUpdate_cmd]
  · intro s h hs
    rw [postJson_some st now b hb, imgUpdate_images, h]
    simp only [asStr, hs, if_true, cmdUpdate_images, webUpdate_images, mobUpdate_images]
  · intro h
    rw [postJson_some st now b hb, imgUpdate_images, h, cmdUpdate_images,
      webUpdate_images, mobUpdate_images]
  · intro s h hs
    have hs' : ¬ 0 < s.length := by omega
    rw [postJson_some st now b hb, imgUpdate_images, h]
    simp only [asStr, hs', if_false, cmdUpdate_images, webUpdate_images, mobUpdate_images]

/-- Concrete session state used by the C5 witness. -/
def c5State : SessionState :=
  { mobileConnected := false, webConnected := true,
    command := some "open_camera".data, images := [] }

/-- Concrete JSON body used by the C5 witness. -/
def c5Body : JsValue := .obj [("mobileConnected".data, .bool true)]

/--
C5, witness: posting a body setting only `mobileConnected` flips that
flag and leaves the other three attributes unchanged.
-/
theorem postJson_spec_witness :
    (postJson c5State 3 (some c5Body)).mobileConnected = true ∧
    (postJson c5State 3 (some c5Body)).webConnected = c5State.webConnected ∧
    (postJson c5State 3 (some c5Body)).command = c5State.command ∧
    (postJson c5State 3 (some c5Body)).images = c5State.images := by
  have h := postJson_spec c5State 3 c5Body rfl
  exact ⟨h.2.2.1 true rfl, h.2.2.2.2.2.1 rfl, h.2.2.2.2.2.2.2.2.1 rfl,
    h.2.2.2.2.2.2.2.2.2.2.1 rfl⟩

/-! ## C6: the multipart image append -/

lemma isPrefixOf_append_self (a b : List Char) : a.isPrefixOf (a ++ b) = true := by
  induction a with
  | nil => simp [List.isPrefixOf]
  | cons c rest ih => simp [List.isPrefixOf, ih]

lemma bufferToDataUrl_eq (bytes : List Nat) (mime : List Char)
    (hm : mime.isEmpty = false) :
    bufferToDataUrl bytes mime =
      "data:".data ++ mime ++ ";base64,".data ++ b64Encode bytes := by
  unfold bufferToDataUrl
  simp [hm]

lemma dmime_ne (f : MFile) :
    (if f.ftype.isEmpty then "image/jpeg".data else f.ftype).isEmpty = false := by
  cases hf : f.ftype.isEmpty
  · simp [hf]
  · simp [hf]

lemma data_image_prefix (tail Y : List Char) :
    ("data:image/".data).isPrefixOf ("data:".data ++ (("image/".data ++ tail) ++ Y)) = true := by
  have h : "data:".data ++ (("image/".data ++ tail) ++ Y) =
      "data:image/".data ++ (tail ++ Y) := by
    rw [show ("data:image/".data : List Char) = "data:".data ++ "image/".data from by decide]
    simp [List.append_assoc]
  rw [h]
  exact isPrefixOf_append_self _ _

/-- The multipart file of the C6 counterexample: a non-image MIME type. -/
def c6File : MFile := { ftype := "text/plain".data, bytes := [0] }

/--
C6, counterexample.  The claim says the appended image's data URL begins
with "data:image/" for every non-empty multipart file; a file declaring
MIME type "text/plain" is appended (exactly one image) with data URL
"data:text/plain;base64,AA==", which does not begin with "data:image/".
-/
theorem postMultipart_imagePrefix_cex :
    ((postMultipart defaultSession 0 (some c6File)).images.map
        (fun im => ("data:image/".data).isPrefixOf im.dataUrl)) = [false] ∧
    ((postMultipart defaultSession 0 (some c6File)).images.map
        (fun im => im.dataUrl)) = ["data:text/plain;base64,AA==".data] := by
  exact ⟨by decide, by decide⟩

/--
C6 (amended).  A multipart POST with a missing/empty file (or a malformed
form) leaves the session unchanged and surfaces no error; a non-empty
file appends exactly one `SessionImage` with the generated id, empty
product and expiry placeholders and a non-empty data URL beginning with
"data:"; the data URL begins with "data:image/" whenever the file's
declared MIME type is an image type or empty (the default is
image/jpeg), but a non-image declared type yields that type's prefix
instead (see the counterexample).
-/
theorem postMultipart_spec (st : SessionState) (now : Nat) (f : MFile) :
    postMultipart st now none = st ∧
    (f.bytes = [] → postMultipart st now (some f) = st) ∧
    (f.bytes ≠ [] →
      (postMultipart st now (some f)).images =
        st.images ++ [{ id := mkId now st.images.length,
                        dataUrl := bufferToDataUrl f.bytes
                          (if f.ftype.isEmpty then "image/jpeg".data else f.ftype),
                        product := [], expiryDate := [] }] ∧
      (postMultipart st now (some f)).images.length = st.images.length + 1 ∧
      bufferToDataUrl f.bytes (if f.ftype.isEmpty then "image/jpeg".data else f.ftype) ≠ [] ∧
      ("data:".data).isPrefixOf
        (bufferToDataUrl f.bytes (if f.ftype.isEmpty then "image/jpeg".data else f.ftype)) = true ∧
      ((f.ftype = [] ∨ ∃ u, f.ftype = "image/".data ++ u) →
        ("data:image/".data).isPrefixOf
          (bufferToDataUrl f.bytes (if f.ftype.isEmpty then "image/jpeg".data else f.ftype)) = true)) := by
  refine ⟨rfl, ?_, ?_⟩
  · intro h
    unfold postMultipart
    simp [h]
  · intro h
    have hlen : 0 < f.bytes.length := by
      cases hbs : f.bytes with
      | nil => exact absurd hbs h
      | cons x xs => simp [hbs]
    refine ⟨?_, ?_, ?_, ?_, ?_⟩
    · unfold postMultipart
      simp [hlen]
    · unfold postMultipart
      simp [hlen]
    · rw [bufferToDataUrl_eq f.bytes _ (dmime_ne f)]
      simp
    · rw [bufferToDataUrl_eq f.bytes _ (dmime_ne f)]
      exact isPrefixOf_append_self _ _
    · intro hty
      rw [bufferToDataUrl_eq f.bytes _ (dmime_ne f)]
      rcases hty with hty | ⟨u, hty⟩
      · rw [hty]
        simp only [List.isEmpty_nil, if_true]
        exact isPrefixOf_append_self "data:image/".data
          ("jpeg;base64,".data ++ b64Encode f.bytes)
      · have hne : f.ftype.isEmpty = false := by rw [hty]; rfl
        rw [hne]
        simp only [Bool.false_eq_true, if_false]
        rw [hty, List.append_assoc, List.append_assoc]
        exact data_image_prefix u _

/--
C6, witness: a one-byte PNG-typed file appended to the default session:
exactly one image, data URL non-empty and image-prefixed.
-/
theorem postMultipart_spec_witness :
    (postMultipart defaultSession 7 (some { ftype := "image/png".data, bytes := [1, 2] })).images.length =
      (defaultSession).images.length + 1 ∧
    ("data:image/".data).isPrefixOf
      (bufferToDataUrl [1, 2] (if ("image/png".data).isEmpty then "image/jpeg".data else "image/png".data)) = true := by
  have h := (postMultipart_spec defaultSession 7 { ftype := "image/png".data, bytes := [1, 2] }).2.2
    (by decide)
  exact ⟨h.2.1, h.2.2.2.2 (Or.inr ⟨"png".data, by decide⟩)⟩

/-! ## C10: frame property of the multipart POST -/

/--
C10 (confirmed).  A multipart POST never changes `mobileConnected`,
`webConnected` or `command`; its only possible effect on the session
state is appending one image to the images list.
-/
theorem postMultipart_frame (st : SessionState) (now : Nat) (file : Option MFile) :
    (postMultipart st now file).mobileConnected = st.mobileConnected ∧
    (postMultipart st now file).webConnected = st.webConnected ∧
    (postMultipart st now file).command = st.command ∧
    ((postMultipart st now file).images = st.images ∨
      ∃ img, (postMultipart st now file).images = st.images ++ [img]) := by
  cases file with
  | none => exact ⟨rfl, rfl, rfl, Or.inl rfl⟩
  | some f =>
    by_cases h : 0 < f.bytes.length
    · have he : (postMultipart st now (some f)).images =
          st.images ++ [{ id := mkId now st.images.length,
                          dataUrl := bufferToDataUrl f.bytes
                            (if f.ftype.isEmpty then "image/jpeg".data else f.ftype),
                          product := [], expiryDate := [] }] := by
        simp [postMultipart, h]
      exact ⟨by simp [postMultipart, h], by simp [postMultipart, h],
        by simp [postMultipart, h], Or.inr ⟨_, he⟩⟩
    · have he : postMultipart st now (some f) = st := by
        simp [postMultipart, h]
      rw [he]
      exact ⟨rfl, rfl, rfl, Or.inl rfl⟩

/-! ## C7: GET default state and idempotence -/

/--
C7 (confirmed).  A GET with an empty session id returns a 400 client
error without touching the store; a GET for a non-empty id not yet in
the store returns the default session `(false, false, null, [])`; and a
repeated GET with no intervening POST returns the same result and leaves
the store as it was after the first GET.
-/
theorem handleGET_spec (store : Store) (sessionId : String) :
    (sessionId = "" → handleGET store sessionId = (.clientError 400, store)) ∧
    (sessionId ≠ "" → lookupS store sessionId = none →
      (handleGET store sessionId).1 = .ok defaultSession) ∧
    (sessionId ≠ "" →
      handleGET (handleGET store sessionId).2 sessionId = handleGET store sessionId) := by
  refine ⟨?_, ?_, ?_⟩
  · intro h
    simp [handleGET, h]
  · intro h hl
    simp [handleGET, h, getOrCreate, hl]
  · intro h
    cases hl : lookupS store sessionId with
    | some s => simp [handleGET, h, getOrCreate, hl]
    | none =>
      simp only [handleGET, h, if_neg, getOrCreate, hl]
      simp [lookupS]

/--
C7, witness: on the empty store, a GET for "abc" returns the default
session, and a GET with an empty id returns a 400 error.
-/
theorem handleGET_spec_witness :
    (handleGET [] "abc").1 = .ok defaultSession ∧
    handleGET [] "" = (.clientError 400, []) := by
  constructor
  · exact (handleGET_spec [] "abc").2.1 (by decide) rfl
  · exact (handleGET_spec [] "").1 rfl

/-! ## C8: manual overrides in the analyze endpoint -/

/-- The C8 counterexample override: non-empty, not matching the anchored
placeholder pattern, yet ignored because the source trims first. -/
def c8Override : List Char := " product_1".data

/--
C8, counterexample.  The claim says a supplied manual product override
replaces the product if and only if it is non-empty and does not match
`product_(digits)`.  The override " product_1" is non-empty and does not
match the anchored pattern, yet the extracted product is NOT replaced:
the source trims the override first, and the trimmed form "product_1" is
a placeholder.
-/
theorem applyOverrides_iff_cex :
    c8Override ≠ [] ∧ isPlaceholder c8Override = false ∧
    applyOverrides ("foo".data, "2027-01-01".data) (some c8Override) none =
      ("foo".data, "2027-01-01".data) := by
  exact ⟨by decide, by decide, by decide⟩

/--
C8 (amended).  The manual product override replaces the extracted
product (with the TRIMMED override truncated to 120 characters) if and
only if its trimmed form is non-empty and is not a `product_(digits)`
placeholder; the manual date override replaces the extracted date with
its `coerceIsoDate` normalisation if and only if it contains a
non-whitespace character; each override touches only its own field.
-/
theorem applyOverrides_spec (extracted : List Char × List Char)
    (mp md : Option (List Char)) :
    (∀ s, mp = some s → (jsTrim s).isEmpty = false → isPlaceholder (jsTrim s) = false →
      (applyOverrides extracted mp md).1 = (jsTrim s).take 120) ∧
    (∀ s, mp = some s → ((jsTrim s).isEmpty = true ∨ isPlaceholder (jsTrim s) = true) →
      (applyOverrides extracted mp md).1 = extracted.1) ∧
    (mp = none → (applyOverrides extracted mp md).1 = extracted.1) ∧
    (∀ d, md = some d → (jsTrim d).isEmpty = false →
      (applyOverrides extracted mp md).2 = coerceIsoDate d) ∧
    (∀ d, md = some d → (jsTrim d).isEmpty = true →
      (applyOverrides extracted mp md).2 = extracted.2) ∧
    (md = none → (applyOverrides extracted mp md).2 = extracted.2) := by
  refine ⟨?_, ?_, ?_, ?_, ?_, ?_⟩
  · intro s hmp h1 h2
    subst hmp
    unfold applyOverrides
    simp only [h1, h2, Bool.not_false, Bool.and_self, if_true]
    cases md with
    | none => rfl
    | some d => by_cases hd : (jsTrim d).isEmpty = true <;> simp [hd]
  · intro s hmp hor
    subst hmp
    unfold applyOverrides
    have hc : (!(jsTrim s).isEmpty && !isPlaceholder (jsTrim s)) = false := by
      rcases hor with h | h <;> simp [h]
    simp only [hc, Bool.false_eq_true, if_false]
    cases md with
    | none => rfl
    | some d => by_cases hd : (jsTrim d).isEmpty = true <;> simp [hd]
  · intro hmp
    subst hmp
    unfold applyOverrides
    simp only [List.isEmpty_nil, Bool.not_true, Bool.false_and, Bool.false_eq_true, if_false]
    cases md with
    | none => rfl
    | some d => by_cases hd : (jsTrim d).isEmpty = true <;> simp [hd]
  · intro d hmd h1
    subst hmd
    unfold applyOverrides
    simp [h1]
  · intro d hmd h1
    subst hmd
    unfold applyOverrides
    simp only [h1, Bool.not_true, Bool.false_eq_true, if_false]
    cases mp with
    | none => rfl
    | some s =>
      by_cases hc : (!(jsTrim s).isEmpty && !isPlaceholder (jsTrim s)) = true <;> simp [hc]
  · intro hmd
    subst hmd
    unfold applyOverrides
    cases mp with
    | none => rfl
    | some s =>
      by_cases hc : (!(jsTrim s).isEmpty && !isPlaceholder (jsTrim s)) = true <;> simp [hc]

/--
C8, witness: a genuine override "My Product" with a month-only date
override " 2027/01 " replaces both fields; the product is replaced by
the trimmed override and the date by its normalisation.
-/
theorem applyOverrides_spec_witness :
    applyOverrides ("x".data, "d".data) (some "My Product".data) (some " 2027/01 ".data) =
      ("My Product".data, "2027-01-01".data) := by
  have h1 := (applyOverrides_spec ("x".data, "d".data)
    (some "My Product".data) (some " 2027/01 ".data)).1 "My Product".data rfl
    (by decide) (by decide)
  have h4 := (applyOverrides_spec ("x".data, "d".data)
    (some "My Product".data) (some " 2027/01 ".data)).2.2.2.1 " 2027/01 ".data rfl
    (by decide)
  refine Prod.ext ?_ ?_
  · rw [h1]; decide
  · rw [h4]; decide

/-! ## C9: uniqueness of SessionImage ids -/

lemma digitChar_toNat (d : Nat) (h : d < 10) : (digitChar d).toNat = 48 + d := by
  interval_cases d <;> decide

/-- Numeric value of a digit string, to invert `natRepr`. -/
def digitsVal (l : List Char) : Nat :=
  l.foldl (fun acc c => acc * 10 + (c.toNat - 48)) 0

lemma digitsVal_append_digit (l : List Char) (c : Char) :
    digitsVal (l ++ [c]) = digitsVal l * 10 + (c.toNat - 48) := by
  simp [digitsVal, List.foldl_append]

lemma natReprAux_val : ∀ (fuel n : Nat), n < fuel → digitsVal (natReprAux fuel n) = n := by
  intro fuel
  induction fuel with
  | zero => intro n h; omega
  | succ fuel ih =>
    intro n h
    by_cases h10 : n < 10
    · simp only [natReprAux, h10, if_true]
      simp [digitsVal, digitChar_toNat n h10]
    · have hd : n / 10 < fuel := by omega
      simp only [natReprAux, h10, if_false]
      rw [digitsVal_append_digit, ih (n / 10) hd, digitChar_toNat (n % 10) (by omega)]
      omega

lemma natRepr_val (n : Nat) : digitsVal (natRepr n) = n :=
  natReprAux_val (n + 1) n (by omega)

lemma natRepr_inj (m n : Nat) (h : natRepr m = natRepr n) : m = n := by
  have hm := natRepr_val m
  rw [h, natRepr_val] at hm
  omega

lemma natReprAux_no_dash : ∀ (fuel n : Nat), '-' ∉ natReprAux fuel n := by
  intro fuel
  induction fuel with
  | zero => intro n hm; simp [natReprAux] at hm
  | succ fuel ih =>
    intro n hm
    by_cases h10 : n < 10
    · simp only [natReprAux, h10, if_true] at hm
      have he : '-' = digitChar n := by simpa using hm
      have := congrArg Char.toNat he
      rw [digitChar_toNat n h10] at this
      have h45 : ('-').toNat = 45 := by decide
      omega
    · simp only [natReprAux, h10, if_false] at hm
      rcases List.mem_append.mp hm with hm' | hm'
      · exact ih (n / 10) hm'
      · have he : '-' = digitChar (n % 10) := by simpa using hm'
        have := congrArg Char.toNat he
        rw [digitChar_toNat (n % 10) (by omega)] at this
        have h45 : ('-').toNat = 45 := by decide
        omega

lemma natRepr_no_dash (n : Nat) : '-' ∉ natRepr n := natReprAux_no_dash (n + 1) n

lemma append_dash_inj : ∀ (a1 a2 b1 b2 : List Char), '-' ∉ a1 → '-' ∉ a2 →
    a1 ++ '-' :: b1 = a2 ++ '-' :: b2 → a1 = a2 ∧ b1 = b2 := by
  intro a1
  induction a1 with
  | nil =>
    intro a2 b1 b2 _ h2 h
    cases a2 with
    | nil => simpa using h
    | cons x xs =>
      simp only [List.nil_append, List.cons_append, List.cons.injEq] at h
      obtain ⟨hx, _⟩ := h
      rw [← hx] at h2
      exact absurd (List.mem_cons_self _ _) h2
  | cons x xs ih =>
    intro a2 b1 b2 h1 h2 h
    cases a2 with
    | nil =>
      simp only [List.cons_append, List.nil_append, List.cons.injEq] at h
      obtain ⟨hx, _⟩ := h
      rw [hx] at h1
      exact absurd (List.mem_cons_self _ _) h1
    | cons y ys =>
      simp only [List.cons_append, List.cons.injEq] at h
      obtain ⟨hxy, hrest⟩ := h
      have h1' : '-' ∉ xs := fun hm => h1 (List.mem_cons_of_mem _ hm)
      have h2' : '-' ∉ ys := fun hm => h2 (List.mem_cons_of_mem _ hm)
      obtain ⟨he, hb⟩ := ih ys b1 b2 h1' h2' hrest
      exact ⟨by rw [hxy, he], hb⟩

lemma mkId_inj_pos (t1 n1 t2 n2 : Nat) (h : mkId t1 n1 = mkId t2 n2) : n1 = n2 := by
  unfold mkId at h
  have h' := List.append_cancel_left h
  obtain ⟨_, hb⟩ := append_dash_inj (natRepr t1) (natRepr t2) (natRepr n1) (natRepr n2)
    (natRepr_no_dash t1) (natRepr_no_dash t2) h'
  exact natRepr_inj _ _ hb

lemma idsFrom_append : ∀ (k : Nat) (l : List SessionImage) (img : SessionImage) (t : Nat),
    idsFrom k l → img.id = mkId t (k + l.length) → idsFrom k (l ++ [img]) := by
  intro k l
  induction l generalizing k with
  | nil =>
    intro img t _ hi
    exact ⟨⟨t, by simpa using hi⟩, trivial⟩
  | cons x xs ih =>
    intro img t hl hi
    obtain ⟨hx, hxs⟩ := hl
    refine ⟨hx, ih (k + 1) img t hxs ?_⟩
    rw [hi]
    have harg : k + (x :: xs).length = k + 1 + xs.length := by
      simp only [List.length_cons]
      omega
    rw [harg]

lemma idsFrom_mem : ∀ (k : Nat) (l : List SessionImage) (img : SessionImage),
    idsFrom k l → img ∈ l → ∃ t j, k ≤ j ∧ img.id = mkId t j := by
  intro k l
  induction l generalizing k with
  | nil => intro img _ hm; cases hm
  | cons x xs ih =>
    intro img hl hm
    obtain ⟨⟨t, hx⟩, hxs⟩ := hl
    rcases List.mem_cons.mp hm with hm' | hm'
    · exact ⟨t, k, Nat.le_refl k, by rw [hm', hx]⟩
    · obtain ⟨t', j, hkj, hj⟩ := ih (k + 1) img hxs hm'
      exact ⟨t', j, by omega, hj⟩

lemma idsFrom_pairwise : ∀ (k : Nat) (l : List SessionImage), idsFrom k l →
    l.Pairwise (fun a b => a.id ≠ b.id) := by
  intro k l
  induction l generalizing k with
  | nil => intro _; exact List.Pairwise.nil
  | cons x xs ih =>
    intro hl
    obtain ⟨⟨t, hx⟩, hxs⟩ := hl
    refine List.Pairwise.cons ?_ (ih (k + 1) hxs)
    intro b hb heq
    obtain ⟨t', j, hkj, hb'⟩ := idsFrom_mem (k + 1) xs b hxs hb
    rw [hx, hb'] at heq
    have := mkId_inj_pos t k t' j heq
    omega

lemma applyOp_images (st : SessionState) (op : SessionOp) :
    (applyOp st op).images = st.images ∨
      ∃ now img, img.id = mkId now st.images.length ∧
        (applyOp st op).images = st.images ++ [img] := by
  cases op with
  | getOp => exact Or.inl rfl
  | multipartPost now f =>
    cases f with
    | none => exact Or.inl rfl
    | some f =>
      by_cases h : 0 < f.bytes.length
      · refine Or.inr ⟨now,
          { id := mkId now st.images.length,
            dataUrl := bufferToDataUrl f.bytes
              (if f.ftype.isEmpty then "image/jpeg".data else f.ftype),
            product := [], expiryDate := [] }, rfl, ?_⟩
        show (postMultipart st now (some f)).images = _
        simp [postMultipart, h]
      · refine Or.inl ?_
        show (postMultipart st now (some f)).images = st.images
        simp [postMultipart, h]
  | jsonPost now b =>
    cases b with
    | none => exact Or.inl rfl
    | some b =>
      by_cases hn : isNullV b = true
      · refine Or.inl ?_
        show (postJson st now (some b)).images = st.images
        simp [postJson, hn]
      · have hb : isNullV b = false := by
          cases hx : isNullV b
          · rfl
          · exact absurd hx hn
        have hR := postJson_some st now b hb
        have hscalar :
            (cmdUpdate
              (webUpdate
                (mobUpdate st (getPropD b "mobileConnected".data))
                (getPropD b "webConnected".data))
              (getPropD b "command".data)).images = st.images := by
          rw [cmdUpdate_images, webUpdate_images, mobUpdate_images]
        simp only [applyOp]
        rw [hR, imgUpdate_images]
        cases ho : asStr (getPropD b "image".data) with
        | none => exact Or.inl hscalar
        | some s =>
          by_cases hs : 0 < s.length
          · simp only [hs, if_true, hscalar]
            exact Or.inr ⟨now,
              { id := mkId now st.images.length, dataUrl := s,
                product := [], expiryDate := [] }, rfl, rfl⟩
          · simp only [hs, if_false]
            exact Or.inl hscalar

lemma runOps_idsFrom (ops : List SessionOp) :
    ∀ st : SessionState, idsFrom 0 st.images → idsFrom 0 (runOps st ops).images := by
  induction ops with
  | nil => intro st h; exact h
  | cons op rest ih =>
    intro st h
    have h1 : idsFrom 0 (applyOp st op).images := by
      rcases applyOp_images st op with he | ⟨now, img, hid, he⟩
      · rw [he]; exact h
      · rw [he]
        exact idsFrom_append 0 st.images img now h (by simpa using hid)
    exact ih (applyOp st op) h1

/--
C9 (confirmed).  Starting from the default session, after any sequence
of requests (GETs, multipart POSTs, JSON POSTs): every image id is
`mobile-(timestamp)-(position)` where the position is the image's index
in the list (the list length at append time, which strictly increases
with each append), and all ids in the session's image list are pairwise
distinct (the position component alone separates them, whatever the
timestamps).
-/
theorem sessionImage_ids_distinct (ops : List SessionOp) :
    idsFrom 0 (runOps defaultSession ops).images ∧
    (runOps defaultSession ops).images.Pairwise (fun a b => a.id ≠ b.id) := by
  have h := runOps_idsFrom ops defaultSession trivial
  exact ⟨h, idsFrom_pairwise 0 _ h⟩

end MobileExpiry
